import Mathlib

/-
Shallow embedding of the gossipsub peer-scoring engine from
`src/protocols/gossipsub/src/peer_score/mod.rs`.

Modelling conventions:
* `f64` counters, weights and thresholds become `Rat` (exact arithmetic).
* `Instant` / `Duration` become `Nat` time units; every operation that
  reads `Instant::now()` in the source takes an explicit `now` argument.
* `HashMap` becomes an association list `List (Nat × β)`; `HashSet`
  becomes a duplicate-free `List Nat`.  Iteration order of the hash
  containers is unspecified in the source; list order is one
  determinization of it.
* The `LruCache` delivery cache becomes a plain map
  `MessageId → Option DeliveryRecord`.  The 120 second expiry
  (`TIME_CACHE_DURATION`) is abstracted away: records persist for the
  whole trace, which models every trace shorter than the expiry window.
* The default message-id function (base58 source string concatenated
  with the sequence number) is abstracted as the pair
  `(source, sequence_number)`; claims do not depend on fingerprint
  collisions.
* `checked_add` on `Instant` cannot overflow on `Nat`, so the
  `unwrap_or_else` fallback in `mark_duplicate_message_delivery` is
  never taken.
-/

set_option maxHeartbeats 1000000

attribute [local semireducible] Rat.add Rat.mul Rat.sub Rat.inv

abbrev PeerId := Nat
abbrev TopicHash := Nat
abbrev IpAddr := Nat
abbrev MessageId := Nat × Nat

structure GossipsubMessage where
  source : PeerId
  sequence_number : Nat
  topics : List TopicHash
deriving DecidableEq, Repr

/-- Association-list lookup, mirroring `HashMap::get`. -/
def lookupA {β : Type} : List (Nat × β) → Nat → Option β
  | [], _ => none
  | (a, v) :: t, k => if a = k then some v else lookupA t k

/-- Association-list in-place mutation of an existing entry, mirroring
`HashMap::get_mut` followed by a mutation (no effect when the key is
absent). -/
def updateA {β : Type} : List (Nat × β) → Nat → (β → β) → List (Nat × β)
  | [], _, _ => []
  | (a, v) :: t, k, f => if a = k then (a, f v) :: t else (a, v) :: updateA t k f

/-- Association-list `entry(k).or_insert(d)` followed by a mutation of the
entry. -/
def entryOr {β : Type} : List (Nat × β) → Nat → β → (β → β) → List (Nat × β)
  | [], k, d, f => [(k, f d)]
  | (a, v) :: t, k, d, f =>
      if a = k then (a, f v) :: t else (a, v) :: entryOr t k d f

/-- Association-list `HashMap::remove`. -/
def eraseA {β : Type} (l : List (Nat × β)) (k : Nat) : List (Nat × β) :=
  l.filter (fun e => e.1 ≠ k)

/-- `HashSet::insert` on a duplicate-free list. -/
def insertId (l : List Nat) (x : Nat) : List Nat :=
  if x ∈ l then l else l ++ [x]

/-- `HashSet::remove` on a duplicate-free list. -/
def removeId (l : List Nat) (x : Nat) : List Nat :=
  l.filter (fun y => y ≠ x)

structure TopicScoreParams where
  topic_weight : Rat
  time_in_mesh_weight : Rat
  time_in_mesh_quantum : Nat
  time_in_mesh_cap : Rat
  first_message_deliveries_weight : Rat
  first_message_deliveries_decay : Rat
  first_message_deliveries_cap : Rat
  mesh_message_deliveries_weight : Rat
  mesh_message_deliveries_decay : Rat
  mesh_message_deliveries_cap : Rat
  mesh_message_deliveries_threshold : Rat
  mesh_message_deliveries_window : Nat
  mesh_message_deliveries_activation : Nat
  mesh_failure_penalty_weight : Rat
  mesh_failure_penalty_decay : Rat
  invalid_message_deliveries_weight : Rat
  invalid_message_deliveries_decay : Rat
deriving DecidableEq, Repr

structure PeerScoreParams where
  topics : List (TopicHash × TopicScoreParams)
  topic_score_cap : Rat
  ip_colocation_factor_weight : Rat
  ip_colocation_factor_threshold : Rat
  ip_colocation_factor_whitelist : List IpAddr
  behaviour_penalty_weight : Rat
  behaviour_penalty_decay : Rat
  decay_to_zero : Rat
  retain_score : Nat
deriving DecidableEq, Repr

/-- `MeshStatus`: `Active { graft_time, mesh_time }` or `InActive`. -/
inductive MeshStatus where
  | Active (graft_time : Nat) (mesh_time : Nat)
  | InActive
deriving DecidableEq, Repr

structure TopicStats where
  mesh_status : MeshStatus
  first_message_deliveries : Rat
  mesh_message_deliveries_active : Bool
  mesh_message_deliveries : Rat
  mesh_failure_penalty : Rat
  invalid_message_deliveries : Rat
deriving DecidableEq, Repr

/-- `TopicStats::default()`. -/
def defaultTopicStats : TopicStats :=
  { mesh_status := .InActive
    first_message_deliveries := 0
    mesh_message_deliveries_active := false
    mesh_message_deliveries := 0
    mesh_failure_penalty := 0
    invalid_message_deliveries := 0 }

/-- `TopicStats::in_mesh`. -/
def TopicStats.in_mesh (ts : TopicStats) : Bool :=
  match ts.mesh_status with
  | .Active _ _ => true
  | .InActive => false

inductive ConnectionStatus where
  | Connected
  | Disconnected (expire : Nat)
deriving DecidableEq, Repr

structure PeerStats where
  status : ConnectionStatus
  topics : List (TopicHash × TopicStats)
  known_ips : List IpAddr
  behaviour_penalty : Rat
deriving DecidableEq, Repr

/-- `PeerStats::default()`. -/
def defaultPeerStats : PeerStats :=
  { status := .Connected, topics := [], known_ips := [], behaviour_penalty := 0 }

inductive DeliveryStatus where
  | Unknown
  | Valid
  | Invalid
  | Ignored
  | Throttled
deriving DecidableEq, Repr

structure DeliveryRecord where
  status : DeliveryStatus
  first_seen : Nat
  validated : Nat
  peers : List PeerId
deriving DecidableEq, Repr

/-- `DeliveryRecord::default()`; both timestamps are `Instant::now()`. -/
def defaultDeliveryRecord (now : Nat) : DeliveryRecord :=
  { status := .Unknown, first_seen := now, validated := now, peers := [] }

inductive RejectMsg where
  | MissingSignature
  | InvalidSignature
  | SelfOrigin
  | BlacklistedPeer
  | BlackListenSource
  | ValidationQueueFull
  | ValidationThrottled
  | ValidationIgnored
deriving DecidableEq, Repr

structure PeerScore where
  params : PeerScoreParams
  peer_stats : List (PeerId × PeerStats)
  peer_ips : IpAddr → List PeerId
  deliveries : MessageId → Option DeliveryRecord
  msg_id : GossipsubMessage → MessageId

/-- The default message-id function of `PeerScore::new` (source id plus
sequence number), abstracted as a pair. -/
def defaultMsgId (msg : GossipsubMessage) : MessageId :=
  (msg.source, msg.sequence_number)

/-- `PeerStats::stats_or_default_mut`, fused with the mutation performed on
the returned reference.  When the topic is scored the entry is created on
demand; when it is not scored the source returns any pre-existing stats,
but stats are only ever created for scored topics (every creation site
goes through the scored branch), so that case carries no existing entry
and the mutation is a no-op.  The mutation receives the topic parameters
that every caller separately looks up with
`params.topics.get(topic).expect(..)`. -/
def PeerStats.stats_or_default_upd (ps : PeerStats) (params : PeerScoreParams)
    (topic : TopicHash) (f : TopicScoreParams → TopicStats → TopicStats) : PeerStats :=
  match lookupA params.topics topic with
  | some tp => { ps with topics := entryOr ps.topics topic defaultTopicStats (f tp) }
  | none => ps

namespace PeerScore

/-- `PeerScore::score`. -/
def score (s : PeerScore) (peer_id : PeerId) : Rat :=
  match lookupA s.peer_stats peer_id with
  | none => 0
  | some peer_stats =>
    let topicsScore := peer_stats.topics.foldl (fun acc e =>
      match lookupA s.params.topics e.1 with
      | none => acc
      | some topic_params =>
        let ts := e.2
        let topic_score : Rat := 0
        let topic_score := match ts.mesh_status with
          | .Active _ mesh_time =>
            let v : Rat := (mesh_time : Rat) / (topic_params.time_in_mesh_quantum : Rat)
            let p1 := if v < topic_params.time_in_mesh_cap then v
              else topic_params.time_in_mesh_cap
            topic_score + p1 * topic_params.time_in_mesh_weight
          | .InActive => topic_score
        let topic_score := topic_score +
          ts.first_message_deliveries * topic_params.first_message_deliveries_weight
        let topic_score :=
          if ts.mesh_message_deliveries_active ∧
              ts.mesh_message_deliveries < topic_params.mesh_message_deliveries_threshold then
            let deficit := topic_params.mesh_message_deliveries_threshold -
              ts.mesh_message_deliveries
            topic_score + (deficit * deficit) * topic_params.mesh_message_deliveries_weight
          else topic_score
        let topic_score := topic_score +
          ts.mesh_failure_penalty * topic_params.mesh_failure_penalty_weight
        let topic_score := topic_score +
          (ts.invalid_message_deliveries * ts.invalid_message_deliveries) *
            topic_params.invalid_message_deliveries_weight
        acc + topic_score * topic_params.topic_weight) (0 : Rat)
    let capped :=
      if s.params.topic_score_cap > 0 ∧ topicsScore > s.params.topic_score_cap then
        s.params.topic_score_cap
      else topicsScore
    let withIps := peer_stats.known_ips.foldl (fun acc ip =>
      if ip ∈ s.params.ip_colocation_factor_whitelist then acc
      else
        -- the source skips addresses absent from `peer_ips`; the total map
        -- returns the empty list there, whose length 0 never exceeds the
        -- threshold (validated positive), so the contribution is 0 either way
        let peers_in_ip : Rat := ((s.peer_ips ip).length : Rat)
        if peers_in_ip > s.params.ip_colocation_factor_threshold then
          let surplus := peers_in_ip - s.params.ip_colocation_factor_threshold
          acc + (surplus * surplus) * s.params.ip_colocation_factor_weight
        else acc) capped
    withIps + (peer_stats.behaviour_penalty * peer_stats.behaviour_penalty) *
      s.params.behaviour_penalty_weight

/-- `PeerScore::add_penalty`. -/
def add_penalty (s : PeerScore) (peer_id : PeerId) (count : Nat) : PeerScore :=
  { s with peer_stats := updateA s.peer_stats peer_id (fun ps =>
      { ps with behaviour_penalty := ps.behaviour_penalty + (count : Rat) }) }

/-- The per-topic decay and mesh-time update performed for a connected peer
inside `refresh_scores`. -/
def decayTopicEntry (params : PeerScoreParams) (now : Nat)
    (e : TopicHash × TopicStats) : TopicHash × TopicStats :=
  match lookupA params.topics e.1 with
  | none => e
  | some tp =>
    let ts := e.2
    let f := ts.first_message_deliveries * tp.first_message_deliveries_decay
    let f := if f < params.decay_to_zero then 0 else f
    let m := ts.mesh_message_deliveries * tp.mesh_message_deliveries_decay
    let m := if m < params.decay_to_zero then 0 else m
    let mfp := ts.mesh_failure_penalty * tp.mesh_failure_penalty_decay
    let mfp := if mfp < params.decay_to_zero then 0 else mfp
    let inv := ts.invalid_message_deliveries * tp.invalid_message_deliveries_decay
    let inv := if inv < params.decay_to_zero then 0 else inv
    let ts := { ts with
      first_message_deliveries := f
      mesh_message_deliveries := m
      mesh_failure_penalty := mfp
      invalid_message_deliveries := inv }
    match ts.mesh_status with
    | .Active graft_time _ =>
      let mesh_time := now - graft_time
      let active :=
        if mesh_time > tp.mesh_message_deliveries_activation then true
        else ts.mesh_message_deliveries_active
      (e.1, { ts with
        mesh_status := .Active graft_time mesh_time
        mesh_message_deliveries_active := active })
    | .InActive => (e.1, ts)

/-- The whole-peer decay step of `refresh_scores` for a connected peer. -/
def decayPeerStats (params : PeerScoreParams) (now : Nat) (ps : PeerStats) : PeerStats :=
  let topics := ps.topics.map (decayTopicEntry params now)
  let bp := ps.behaviour_penalty * params.behaviour_penalty_decay
  let bp := if bp < params.decay_to_zero then 0 else bp
  { ps with topics := topics, behaviour_penalty := bp }

/-- Removing one peer from the `peer_ips` sets of the listed addresses
(the IP-index cleanup loop of `refresh_scores` and `remove_ips`). -/
def removePeerFromIps (ips : IpAddr → List PeerId) (pid : PeerId)
    (l : List IpAddr) : IpAddr → List PeerId :=
  l.foldl (fun m ip => fun q => if q = ip then removeId (m ip) pid else m q) ips

/-- One `retain` step of `refresh_scores`: the accumulator carries the
retained entries and the (mutated) IP index. -/
def refreshStep (params : PeerScoreParams) (now : Nat)
    (acc : List (PeerId × PeerStats) × (IpAddr → List PeerId))
    (e : PeerId × PeerStats) :
    List (PeerId × PeerStats) × (IpAddr → List PeerId) :=
  match e.2.status with
  | .Disconnected expire =>
    if now > expire then (acc.1, removePeerFromIps acc.2 e.1 e.2.known_ips)
    else (acc.1 ++ [e], acc.2)
  | .Connected => (acc.1 ++ [(e.1, decayPeerStats params now e.2)], acc.2)

/-- `PeerScore::refresh_scores`. -/
def refresh_scores (s : PeerScore) (now : Nat) : PeerScore :=
  let r := s.peer_stats.foldl (refreshStep s.params now) ([], s.peer_ips)
  { s with peer_stats := r.1, peer_ips := r.2 }

/-- `PeerScore::add_peer`. -/
def add_peer (s : PeerScore) (peer_id : PeerId) (known_ips : List IpAddr) : PeerScore :=
  let stats := entryOr s.peer_stats peer_id defaultPeerStats
    (fun ps => { ps with status := .Connected, known_ips := known_ips })
  let ips := known_ips.foldl
    (fun m ip => fun q => if q = ip then insertId (m ip) peer_id else m q) s.peer_ips
  { s with peer_stats := stats, peer_ips := ips }

/-- `PeerScore::remove_peer`. -/
def remove_peer (s : PeerScore) (now : Nat) (peer_id : PeerId) : PeerScore :=
  if s.score peer_id > 0 then
    { s with peer_stats := eraseA s.peer_stats peer_id }
  else
    { s with peer_stats := updateA s.peer_stats peer_id (fun ps =>
        let topics := ps.topics.map (fun e =>
          let ts := { e.2 with first_message_deliveries := (0 : Rat) }
          let ts := match lookupA s.params.topics e.1 with
            | some tp =>
              if ts.in_mesh ∧ ts.mesh_message_deliveries_active ∧
                  ts.mesh_message_deliveries < tp.mesh_message_deliveries_threshold then
                let deficit := tp.mesh_message_deliveries_threshold -
                  ts.mesh_message_deliveries
                { ts with mesh_failure_penalty := ts.mesh_failure_penalty + deficit * deficit }
              else ts
            | none => ts
          (e.1, { ts with mesh_status := .InActive }))
        { ps with
          topics := topics
          status := .Disconnected (now + s.params.retain_score) }) }

/-- `PeerScore::graft` (the `MeshStatus::new_active()` timestamps are
`graft_time = now`, `mesh_time = 0`). -/
def graft (s : PeerScore) (now : Nat) (peer_id : PeerId) (topic : TopicHash) : PeerScore :=
  { s with peer_stats := updateA s.peer_stats peer_id (fun ps =>
      ps.stats_or_default_upd s.params topic (fun _tp ts =>
        { ts with
          mesh_status := .Active now 0
          mesh_message_deliveries_active := false })) }

/-- The per-topic mutation performed by `prune`: sticky mesh delivery rate
failure penalty, then clearing the activity flag.  The source does not
touch `mesh_status` here. -/
def pruneUpd (tp : TopicScoreParams) (ts : TopicStats) : TopicStats :=
  let threshold := tp.mesh_message_deliveries_threshold
  let ts :=
    if ts.mesh_message_deliveries_active ∧ ts.mesh_message_deliveries < threshold then
      let deficit := threshold - ts.mesh_message_deliveries
      { ts with mesh_failure_penalty := ts.mesh_failure_penalty + deficit * deficit }
    else ts
  { ts with mesh_message_deliveries_active := false }

/-- `PeerScore::prune`. -/
def prune (s : PeerScore) (peer_id : PeerId) (topic : TopicHash) : PeerScore :=
  { s with peer_stats := updateA s.peer_stats peer_id (fun ps =>
      ps.stats_or_default_upd s.params topic pruneUpd) }

/-- The per-topic increment performed by `mark_invalid_message_delivery`. -/
def invalidUpd (_tp : TopicScoreParams) (ts : TopicStats) : TopicStats :=
  { ts with invalid_message_deliveries := ts.invalid_message_deliveries + 1 }

/-- `PeerScore::mark_invalid_message_delivery`. -/
def mark_invalid_message_delivery (s : PeerScore) (peer_id : PeerId)
    (msg : GossipsubMessage) : PeerScore :=
  { s with peer_stats := updateA s.peer_stats peer_id (fun ps =>
      msg.topics.foldl (fun ps topic_hash =>
        ps.stats_or_default_upd s.params topic_hash invalidUpd) ps) }

/-- The per-topic update performed by `mark_first_message_delivery`.  Note
the source assigns `topic_stats.first_message_deliveries + 1` (the counter
incremented just above) into the mesh counter when the capped branch is
not taken; that assignment is reproduced verbatim here. -/
def firstDeliveryUpd (tp : TopicScoreParams) (ts : TopicStats) : TopicStats :=
  let cap := tp.first_message_deliveries_cap
  let ts := { ts with first_message_deliveries :=
      if ts.first_message_deliveries + 1 > cap then cap
      else ts.first_message_deliveries + 1 }
  match ts.mesh_status with
  | .Active _ _ =>
    let cap := tp.mesh_message_deliveries_cap
    { ts with mesh_message_deliveries :=
        if ts.mesh_message_deliveries + 1 > cap then cap
        else ts.first_message_deliveries + 1 }
  | .InActive => ts

/-- `PeerScore::mark_first_message_delivery`. -/
def mark_first_message_delivery (s : PeerScore) (peer_id : PeerId)
    (msg : GossipsubMessage) : PeerScore :=
  { s with peer_stats := updateA s.peer_stats peer_id (fun ps =>
      msg.topics.foldl (fun ps topic_hash =>
        ps.stats_or_default_upd s.params topic_hash firstDeliveryUpd) ps) }

/-- The per-topic update performed by `mark_duplicate_message_delivery`.
In the source the whole counter update sits inside
`if let Some(validated_time) = validated_time`, so a `None` validated time
performs no update at all; that shape is reproduced verbatim here. -/
def dupDeliveryUpd (now : Nat) (validated_time : Option Nat)
    (tp : TopicScoreParams) (ts : TopicStats) : TopicStats :=
  match ts.mesh_status with
  | .Active _ _ =>
    match validated_time with
    | some vt =>
      let window_time := vt + tp.mesh_message_deliveries_window
      if now > window_time then ts
      else
        let cap := tp.mesh_message_deliveries_cap
        { ts with mesh_message_deliveries :=
            if ts.mesh_message_deliveries + 1 > cap then cap
            else ts.mesh_message_deliveries + 1 }
    | none => ts
  | .InActive => ts

/-- `PeerScore::mark_duplicate_message_delivery`. -/
def mark_duplicate_message_delivery (s : PeerScore) (now : Nat) (peer_id : PeerId)
    (msg : GossipsubMessage) (validated_time : Option Nat) : PeerScore :=
  { s with peer_stats := updateA s.peer_stats peer_id (fun ps =>
      msg.topics.foldl (fun ps topic_hash =>
        ps.stats_or_default_upd s.params topic_hash
          (dupDeliveryUpd now validated_time)) ps) }

/-- Pointwise update of the delivery cache at one message id. -/
def setDelivery (s : PeerScore) (mid : MessageId) (r : Option DeliveryRecord) : PeerScore :=
  { s with deliveries := fun m => if m = mid then r else s.deliveries m }

/-- `PeerScore::deliver_message`.  The `deliveries.entry(..).or_insert_with`
call inserts a default record when the id is absent, so every branch keeps
(or stores) the record in the cache. -/
def deliver_message (s : PeerScore) (now : Nat) (from_ : PeerId)
    (msg : GossipsubMessage) : PeerScore :=
  let s := mark_first_message_delivery s from_ msg
  let mid := s.msg_id msg
  let record := (s.deliveries mid).getD (defaultDeliveryRecord now)
  if record.status ≠ .Unknown then
    setDelivery s mid (some record)
  else
    let record := { record with status := .Valid, validated := now }
    let s := setDelivery s mid (some record)
    record.peers.foldl (fun s peer =>
      if peer ≠ from_ then mark_duplicate_message_delivery s now peer msg none
      else s) s

/-- `PeerScore::duplicated_message`.  The source removes `from` from
`record.peers` in the `Unknown` and `Valid` branches; that is reproduced
verbatim here. -/
def duplicated_message (s : PeerScore) (now : Nat) (from_ : PeerId)
    (msg : GossipsubMessage) : PeerScore :=
  let mid := s.msg_id msg
  let record := (s.deliveries mid).getD (defaultDeliveryRecord now)
  if from_ ∈ record.peers then
    setDelivery s mid (some record)
  else
    match record.status with
    | .Unknown =>
      setDelivery s mid (some { record with peers := removeId record.peers from_ })
    | .Valid =>
      let validated := record.validated
      let s := setDelivery s mid (some { record with peers := removeId record.peers from_ })
      mark_duplicate_message_delivery s now from_ msg (some validated)
    | .Invalid =>
      let s := setDelivery s mid (some record)
      mark_invalid_message_delivery s from_ msg
    | .Throttled => setDelivery s mid (some record)
    | .Ignored => setDelivery s mid (some record)

/-- `PeerScore::reject_message`.  In the source the first `match` has empty
(non-returning) arms for `MissingSignature`, `InvalidSignature` and
`BlacklistedPeer`, so those reasons fall through to the record handling
below exactly like the `ValidationThrottled` / `ValidationIgnored` /
default reasons do. -/
def reject_message (s : PeerScore) (now : Nat) (from_ : PeerId)
    (msg : GossipsubMessage) (reason : RejectMsg) : PeerScore :=
  match reason with
  | .SelfOrigin => mark_invalid_message_delivery s from_ msg
  | .BlackListenSource => s
  | .ValidationQueueFull => s
  | _ =>
    let mid := s.msg_id msg
    let record := (s.deliveries mid).getD (defaultDeliveryRecord now)
    let s := setDelivery s mid none
    if record.status ≠ .Unknown then
      setDelivery s mid (some record)
    else
      match reason with
      | .ValidationThrottled =>
        setDelivery s mid (some { record with status := .Throttled, peers := [] })
      | .ValidationIgnored =>
        setDelivery s mid (some { record with status := .Ignored, peers := [] })
      | _ =>
        let record := { record with status := .Invalid }
        let s := mark_invalid_message_delivery s from_ msg
        let s := record.peers.foldl
          (fun s peer_id => mark_invalid_message_delivery s peer_id msg) s
        setDelivery s mid (some { record with peers := [] })

/-- `PeerScore::remove_ips`. -/
def remove_ips (s : PeerScore) (peer_id : PeerId) (ips : List IpAddr) : PeerScore :=
  { s with peer_ips := removePeerFromIps s.peer_ips peer_id ips }

end PeerScore

/-- The topic statistics stored for a (peer, topic) pair, when present. -/
def topicStatsOf (s : PeerScore) (p : PeerId) (t : TopicHash) : Option TopicStats :=
  (lookupA s.peer_stats p).bind (fun ps => lookupA ps.topics t)

/-- A message-level event of the delivery-record state machine. -/
inductive MsgOp where
  | deliver (now : Nat) (from_ : PeerId) (msg : GossipsubMessage)
  | dup (now : Nat) (from_ : PeerId) (msg : GossipsubMessage)
  | reject (now : Nat) (from_ : PeerId) (msg : GossipsubMessage) (reason : RejectMsg)

/-- Run one message-level event. -/
def execMsgOp (s : PeerScore) : MsgOp → PeerScore
  | .deliver now f msg => s.deliver_message now f msg
  | .dup now f msg => s.duplicated_message now f msg
  | .reject now f msg r => s.reject_message now f msg r

/-- Run a sequence of message-level events. -/
def execMsgOps (s : PeerScore) (ops : List MsgOp) : PeerScore :=
  ops.foldl execMsgOp s

/-
Concrete test fixtures used by the counterexamples and witnesses below.
-/

/-- Baseline per-topic parameters for the concrete scenarios. -/
def tpBase : TopicScoreParams :=
  { topic_weight := 1
    time_in_mesh_weight := 0
    time_in_mesh_quantum := 1
    time_in_mesh_cap := 10
    first_message_deliveries_weight := 1
    first_message_deliveries_decay := 1/2
    first_message_deliveries_cap := 100
    mesh_message_deliveries_weight := -1
    mesh_message_deliveries_decay := 1/2
    mesh_message_deliveries_cap := 10
    mesh_message_deliveries_threshold := 5
    mesh_message_deliveries_window := 10
    mesh_message_deliveries_activation := 2
    mesh_failure_penalty_weight := -1
    mesh_failure_penalty_decay := 1/2
    invalid_message_deliveries_weight := -1
    invalid_message_deliveries_decay := 1/2 }

/-- Baseline global parameters: one scored topic `0`. -/
def paramsBase : PeerScoreParams :=
  { topics := [(0, tpBase)]
    topic_score_cap := 0
    ip_colocation_factor_weight := -1
    ip_colocation_factor_threshold := 100
    ip_colocation_factor_whitelist := []
    behaviour_penalty_weight := -1
    behaviour_penalty_decay := 1/2
    decay_to_zero := 1/100
    retain_score := 10 }

/-- An engine with no peers, no tracked IPs and an empty delivery cache. -/
def emptyEngine (ps : PeerScoreParams) : PeerScore :=
  { params := ps
    peer_stats := []
    peer_ips := fun _ => []
    deliveries := fun _ => none
    msg_id := defaultMsgId }

/-- A message on topic `0` with the given sequence number. -/
def msgOn0 (seqno : Nat) : GossipsubMessage :=
  { source := 0, sequence_number := seqno, topics := [0] }

/-- C1 fixture: peer `0` is in the mesh for topic `0` with five first
deliveries already credited and no mesh deliveries yet. -/
def tsFive : TopicStats :=
  { mesh_status := .Active 0 0
    first_message_deliveries := 5
    mesh_message_deliveries_active := false
    mesh_message_deliveries := 0
    mesh_failure_penalty := 0
    invalid_message_deliveries := 0 }

/-- C1 fixture engine. -/
def engFive : PeerScore :=
  { emptyEngine paramsBase with
    peer_stats := [(0, { defaultPeerStats with topics := [(0, tsFive)] })] }

/-- C2 fixture: peers `0` and `1`, peer `0` grafted on topic `0`, and the
message `(0, 1)` delivered first by peer `1` (so its record is `Valid`),
all built through the public operations. -/
def engValidRec : PeerScore :=
  let e := emptyEngine paramsBase
  let e := e.add_peer 0 []
  let e := e.add_peer 1 []
  let e := e.graft 0 0 0
  e.deliver_message 0 1 (msgOn0 1)

/-- C3 fixture: peer `0` grafted on topic `0`, nothing delivered yet. -/
def engGrafted : PeerScore :=
  let e := emptyEngine paramsBase
  let e := e.add_peer 0 []
  e.graft 0 0 0

/-- C3 fixture: peer `1` grafted on topic `0`, and an `Unknown` record for
message `(0, 1)` with peer `1` recorded as a relayer. -/
def engRelayer : PeerScore :=
  let e := emptyEngine paramsBase
  let e := e.add_peer 1 []
  let e := e.graft 0 1 0
  PeerScore.setDelivery e (0, 1) (some { defaultDeliveryRecord 0 with peers := [1] })

/-- C4 fixture: peer `0` known, empty delivery cache. -/
def engOnePeer : PeerScore :=
  (emptyEngine paramsBase).add_peer 0 []

/-- C5 fixture: mesh delivery cap `2`; two messages delivered before the
graft, one after. -/
def engCapRun : PeerScore :=
  let e := emptyEngine
    { paramsBase with topics := [(0, { tpBase with mesh_message_deliveries_cap := 2 })] }
  let e := e.add_peer 0 []
  let e := e.deliver_message 0 0 (msgOn0 1)
  let e := e.deliver_message 0 0 (msgOn0 2)
  let e := e.graft 0 0 0
  e.deliver_message 0 0 (msgOn0 3)

/-- C6 fixture: first-delivery weight `2` so that one delivery makes the
score positive; peer `0` added at address `7`, one delivery, then removed. -/
def engPositiveRemoved : PeerScore :=
  let e := emptyEngine
    { paramsBase with topics := [(0, { tpBase with first_message_deliveries_weight := 2 })] }
  let e := e.add_peer 0 [7]
  let e := e.deliver_message 0 0 (msgOn0 1)
  e.remove_peer 0 0

/-- C7 counterexample fixture: peer `0` grafted on topic `0` at time 3. -/
def engGraftedAt3 : PeerScore :=
  let e := (emptyEngine paramsBase).add_peer 0 []
  e.graft 3 0 0

/-- C7 witness fixture: active mesh deliveries below the threshold. -/
def tsActiveBelow : TopicStats :=
  { mesh_status := .Active 1 0
    first_message_deliveries := 0
    mesh_message_deliveries_active := true
    mesh_message_deliveries := 2
    mesh_failure_penalty := 0
    invalid_message_deliveries := 0 }

/-- C7 witness fixture: the peer stats holding `tsActiveBelow`. -/
def psActiveBelow : PeerStats :=
  { defaultPeerStats with topics := [(0, tsActiveBelow)] }

/-- C7 witness fixture engine. -/
def engActiveBelow : PeerScore :=
  { emptyEngine paramsBase with peer_stats := [(0, psActiveBelow)] }

/-- C8 / C10 witness fixture: a `Valid` record for message `(0, 1)`. -/
def recValid : DeliveryRecord :=
  { status := .Valid, first_seen := 0, validated := 0, peers := [] }

/-- C8 witness fixture: engine whose cache holds `recValid`. -/
def engRecValid : PeerScore :=
  { emptyEngine paramsBase with
    peer_stats := [(0, { defaultPeerStats with topics := [(0, tsFive)] })]
    deliveries := fun m => if m = (0, 1) then some recValid else none }

/-- C9 counterexample fixture: peer `0` added twice with different
addresses, then removed with score 0, leaving a stale entry for address
`1` and a `Disconnected` status expiring at 10. -/
def engStaleIp : PeerScore :=
  let e := emptyEngine paramsBase
  let e := e.add_peer 0 [1]
  let e := e.add_peer 0 [2]
  e.remove_peer 0 0

/-- C9 witness fixture: a disconnected peer expiring at time 5, known at
address 1. -/
def psRetained : PeerStats :=
  { defaultPeerStats with status := .Disconnected 5, known_ips := [1] }

/-- C9 witness fixture engine. -/
def engRetained : PeerScore :=
  { emptyEngine paramsBase with
    peer_stats := [(0, psRetained)]
    peer_ips := fun ip => if ip = 1 then [0] else [] }

/-- C10 witness fixture: one first delivery already credited for peer `0`
on topic `0` (not in mesh), and a `Valid` record for message `(0, 1)`. -/
def tsOneFirst : TopicStats :=
  { defaultTopicStats with first_message_deliveries := 1 }

/-- C10 witness fixture: the peer stats holding `tsOneFirst`. -/
def psOneFirst : PeerStats :=
  { defaultPeerStats with topics := [(0, tsOneFirst)] }

/-- C10 witness fixture engine. -/
def engOneFirst : PeerScore :=
  { emptyEngine paramsBase with
    peer_stats := [(0, psOneFirst)]
    deliveries := fun m => if m = (0, 1) then some recValid else none }

/-
Association-list lemmas.
-/

theorem lookupA_updateA_self {β : Type} (l : List (Nat × β)) (k : Nat) (f : β → β) :
    lookupA (updateA l k f) k = (lookupA l k).map f := by
  induction l with
  | nil => rfl
  | cons e t ih =>
    obtain ⟨a, v⟩ := e
    by_cases h : a = k
    · simp [updateA, lookupA, h]
    · simp [updateA, lookupA, h, ih]

theorem lookupA_entryOr_self {β : Type} (l : List (Nat × β)) (k : Nat) (d : β) (f : β → β) :
    lookupA (entryOr l k d f) k = some (f ((lookupA l k).getD d)) := by
  induction l with
  | nil => simp [entryOr, lookupA]
  | cons e t ih =>
    obtain ⟨a, v⟩ := e
    by_cases h : a = k
    · simp [entryOr, lookupA, h]
    · simp [entryOr, lookupA, h, ih]

theorem lookupA_entryOr_ne {β : Type} (l : List (Nat × β)) (k k' : Nat) (d : β)
    (f : β → β) (h : k ≠ k') :
    lookupA (entryOr l k d f) k' = lookupA l k' := by
  induction l with
  | nil => simp [entryOr, lookupA, h]
  | cons e t ih =>
    obtain ⟨a, v⟩ := e
    by_cases ha : a = k
    · subst ha
      simp [entryOr, lookupA, h]
    · simp [entryOr, lookupA, ha, ih]

theorem lookupA_append_none {β : Type} (l1 l2 : List (Nat × β)) (k : Nat)
    (h : lookupA l1 k = none) :
    lookupA (l1 ++ l2) k = lookupA l2 k := by
  induction l1 with
  | nil => rfl
  | cons e t ih =>
    obtain ⟨a, v⟩ := e
    by_cases ha : a = k
    · simp [lookupA, ha] at h
    · simp [lookupA, ha] at h ⊢
      exact ih h

theorem lookupA_append_ne {β : Type} (l : List (Nat × β)) (a k : Nat) (v : β)
    (h : a ≠ k) :
    lookupA (l ++ [(a, v)]) k = lookupA l k := by
  induction l with
  | nil => simp [lookupA, h]
  | cons e t ih =>
    obtain ⟨b, w⟩ := e
    by_cases hb : b = k
    · simp [lookupA, hb]
    · simp [lookupA, hb, ih]

theorem lookupA_split {β : Type} (l : List (Nat × β)) (k : Nat) (v : β)
    (h : lookupA l k = some v) :
    ∃ l1 l2, l = l1 ++ (k, v) :: l2 ∧ ∀ e ∈ l1, e.1 ≠ k := by
  induction l with
  | nil => simp [lookupA] at h
  | cons e t ih =>
    obtain ⟨a, w⟩ := e
    by_cases ha : a = k
    · subst ha
      simp [lookupA] at h
      exact ⟨[], t, by simp [h], by simp⟩
    · simp [lookupA, ha] at h
      obtain ⟨l1, l2, rfl, hl1⟩ := ih h
      exact ⟨(a, w) :: l1, l2, rfl, by
        intro e he
        rcases List.mem_cons.mp he with rfl | he'
        · exact ha
        · exact hl1 e he'⟩

/-
Lemmas about `stats_or_default_upd` and the per-topic folds of the
`mark_*` operations.
-/

theorem stats_upd_lookup_scored (ps : PeerStats) (params : PeerScoreParams)
    (t : TopicHash) (tp : TopicScoreParams)
    (f : TopicScoreParams → TopicStats → TopicStats)
    (h : lookupA params.topics t = some tp) :
    lookupA (ps.stats_or_default_upd params t f).topics t
      = some (f tp ((lookupA ps.topics t).getD defaultTopicStats)) := by
  simp only [PeerStats.stats_or_default_upd, h]
  exact lookupA_entryOr_self ..

theorem stats_upd_lookup_ne (ps : PeerStats) (params : PeerScoreParams)
    (t : TopicHash) (f : TopicScoreParams → TopicStats → TopicStats)
    (t' : TopicHash) (h : t ≠ t') :
    lookupA (ps.stats_or_default_upd params t f).topics t' = lookupA ps.topics t' := by
  simp only [PeerStats.stats_or_default_upd]
  cases hl : lookupA params.topics t with
  | none => rfl
  | some tp => exact lookupA_entryOr_ne _ _ _ _ _ h

theorem foldl_stats_upd_not_mem (params : PeerScoreParams)
    (f : TopicScoreParams → TopicStats → TopicStats)
    (l : List TopicHash) (ps : PeerStats) (t : TopicHash) (h : t ∉ l) :
    lookupA (l.foldl (fun ps th => ps.stats_or_default_upd params th f) ps).topics t
      = lookupA ps.topics t := by
  induction l generalizing ps with
  | nil => rfl
  | cons a l ih =>
    have ha : a ≠ t := fun hh => h (hh ▸ List.mem_cons_self a l)
    have h' : t ∉ l := fun hm => h (List.mem_cons_of_mem _ hm)
    rw [List.foldl_cons, ih _ h', stats_upd_lookup_ne _ _ _ _ _ ha]

theorem foldl_stats_upd_mem (params : PeerScoreParams)
    (f : TopicScoreParams → TopicStats → TopicStats)
    (l : List TopicHash) (ps : PeerStats) (t : TopicHash) (tp : TopicScoreParams)
    (hnd : l.Nodup) (hmem : t ∈ l) (htp : lookupA params.topics t = some tp) :
    lookupA (l.foldl (fun ps th => ps.stats_or_default_upd params th f) ps).topics t
      = some (f tp ((lookupA ps.topics t).getD defaultTopicStats)) := by
  obtain ⟨l1, l2, rfl⟩ := List.append_of_mem hmem
  rw [List.nodup_append] at hnd
  obtain ⟨-, hnd2, hdisj⟩ := hnd
  have ht2 : t ∉ l2 := (List.nodup_cons.mp hnd2).1
  have ht1 : t ∉ l1 := fun hh => hdisj hh (List.mem_cons_self t l2)
  rw [List.foldl_append, List.foldl_cons,
    foldl_stats_upd_not_mem _ _ _ _ _ ht2,
    stats_upd_lookup_scored _ _ _ _ _ htp,
    foldl_stats_upd_not_mem _ _ _ _ _ ht1]

/-
Frame lemmas: the `mark_*` operations only touch `peer_stats`, and
`setDelivery` only touches the cache.
-/

theorem mark_first_deliveries (s : PeerScore) (p : PeerId) (msg : GossipsubMessage) :
    (s.mark_first_message_delivery p msg).deliveries = s.deliveries := rfl

theorem mark_first_msg_id (s : PeerScore) (p : PeerId) (msg : GossipsubMessage) :
    (s.mark_first_message_delivery p msg).msg_id = s.msg_id := rfl

theorem mark_dup_deliveries (s : PeerScore) (now : Nat) (p : PeerId)
    (msg : GossipsubMessage) (vt : Option Nat) :
    (s.mark_duplicate_message_delivery now p msg vt).deliveries = s.deliveries := rfl

theorem mark_invalid_deliveries (s : PeerScore) (p : PeerId) (msg : GossipsubMessage) :
    (s.mark_invalid_message_delivery p msg).deliveries = s.deliveries := rfl

theorem setDelivery_peer_stats (s : PeerScore) (mid : MessageId) (r : Option DeliveryRecord) :
    (PeerScore.setDelivery s mid r).peer_stats = s.peer_stats := rfl

theorem setDelivery_self (s : PeerScore) (mid : MessageId) (r : Option DeliveryRecord) :
    (PeerScore.setDelivery s mid r).deliveries mid = r := by
  simp [PeerScore.setDelivery]

theorem setDelivery_ne (s : PeerScore) (mid : MessageId) (r : Option DeliveryRecord)
    (m : MessageId) (h : m ≠ mid) :
    (PeerScore.setDelivery s mid r).deliveries m = s.deliveries m := by
  simp [PeerScore.setDelivery, h]

theorem foldl_mark_dup_deliveries (now : Nat) (from_ : PeerId) (msg : GossipsubMessage)
    (l : List PeerId) (s : PeerScore) :
    (l.foldl (fun s peer =>
        if peer ≠ from_ then s.mark_duplicate_message_delivery now peer msg none
        else s) s).deliveries = s.deliveries := by
  induction l generalizing s with
  | nil => rfl
  | cons p l ih =>
    rw [List.foldl_cons, ih]
    by_cases h : p ≠ from_
    · simp [h, mark_dup_deliveries]
    · simp [h]

theorem foldl_mark_invalid_deliveries (msg : GossipsubMessage)
    (l : List PeerId) (s : PeerScore) :
    (l.foldl (fun s peer_id => s.mark_invalid_message_delivery peer_id msg) s).deliveries
      = s.deliveries := by
  induction l generalizing s with
  | nil => rfl
  | cons p l ih =>
    rw [List.foldl_cons, ih, mark_invalid_deliveries]

/-
Behaviour of the delivery operations on a record that has already left
the `Unknown` status.
-/

theorem deliver_message_not_unknown (s : PeerScore) (now : Nat) (from_ : PeerId)
    (msg : GossipsubMessage) (r : DeliveryRecord)
    (hrec : s.deliveries (s.msg_id msg) = some r) (hst : r.status ≠ .Unknown) :
    s.deliver_message now from_ msg
      = PeerScore.setDelivery (s.mark_first_message_delivery from_ msg)
          (s.msg_id msg) (some r) := by
  have hrec' : (s.mark_first_message_delivery from_ msg).deliveries
      ((s.mark_first_message_delivery from_ msg).msg_id msg) = some r := hrec
  simp only [PeerScore.deliver_message, hrec', Option.getD_some, if_pos hst]
  rfl

theorem reject_message_not_unknown (s : PeerScore) (now : Nat) (from_ : PeerId)
    (msg : GossipsubMessage) (reason : RejectMsg) (r : DeliveryRecord)
    (hrec : s.deliveries (s.msg_id msg) = some r) (hst : r.status ≠ .Unknown) :
    (s.reject_message now from_ msg reason).deliveries (s.msg_id msg) = some r := by
  cases reason with
  | SelfOrigin => exact hrec
  | BlackListenSource => exact hrec
  | ValidationQueueFull => exact hrec
  | MissingSignature =>
    simp only [PeerScore.reject_message, hrec, Option.getD_some, if_pos hst]
    exact setDelivery_self ..
  | InvalidSignature =>
    simp only [PeerScore.reject_message, hrec, Option.getD_some, if_pos hst]
    exact setDelivery_self ..
  | BlacklistedPeer =>
    simp only [PeerScore.reject_message, hrec, Option.getD_some, if_pos hst]
    exact setDelivery_self ..
  | ValidationThrottled =>
    simp only [PeerScore.reject_message, hrec, Option.getD_some, if_pos hst]
    exact setDelivery_self ..
  | ValidationIgnored =>
    simp only [PeerScore.reject_message, hrec, Option.getD_some, if_pos hst]
    exact setDelivery_self ..

theorem execMsgOp_preserves_status (s : PeerScore) (mid : MessageId) (r : DeliveryRecord)
    (hrec : s.deliveries mid = some r) (hst : r.status ≠ .Unknown) (op : MsgOp) :
    ∃ r', (execMsgOp s op).deliveries mid = some r' ∧ r'.status = r.status := by
  cases op with
  | deliver now f msg =>
    by_cases hm : s.msg_id msg = mid
    · refine ⟨r, ?_, rfl⟩
      show (s.deliver_message now f msg).deliveries mid = some r
      rw [deliver_message_not_unknown s now f msg r (hm ▸ hrec) hst, ← hm]
      exact setDelivery_self ..
    · have hne : mid ≠ s.msg_id msg := fun h => hm h.symm
      refine ⟨r, ?_, rfl⟩
      show (s.deliver_message now f msg).deliveries mid = some r
      simp only [PeerScore.deliver_message, mark_first_msg_id, mark_first_deliveries]
      split
      · rw [setDelivery_ne _ _ _ _ hne]
        exact hrec
      · rw [foldl_mark_dup_deliveries, setDelivery_ne _ _ _ _ hne]
        exact hrec
  | dup now f msg =>
    by_cases hm : s.msg_id msg = mid
    · have hrec' : s.deliveries (s.msg_id msg) = some r := hm ▸ hrec
      show ∃ r', (s.duplicated_message now f msg).deliveries mid = some r' ∧
        r'.status = r.status
      simp only [PeerScore.duplicated_message, hrec', Option.getD_some]
      by_cases hp : f ∈ r.peers
      · rw [if_pos hp]
        exact ⟨r, by rw [← hm]; exact setDelivery_self .., rfl⟩
      · rw [if_neg hp]
        cases hsts : r.status with
        | Unknown => exact absurd hsts hst
        | Valid =>
          refine ⟨{ r with status := .Valid, peers := removeId r.peers f }, ?_, rfl⟩
          rw [mark_dup_deliveries, ← hm]
          exact setDelivery_self ..
        | Invalid =>
          refine ⟨r, ?_, hsts⟩
          rw [mark_invalid_deliveries, ← hm]
          exact setDelivery_self ..
        | Throttled =>
          refine ⟨r, ?_, hsts⟩
          rw [← hm]
          exact setDelivery_self ..
        | Ignored =>
          refine ⟨r, ?_, hsts⟩
          rw [← hm]
          exact setDelivery_self ..
    · have hne : mid ≠ s.msg_id msg := fun h => hm h.symm
      refine ⟨r, ?_, rfl⟩
      show (s.duplicated_message now f msg).deliveries mid = some r
      simp only [PeerScore.duplicated_message]
      split
      · rw [setDelivery_ne _ _ _ _ hne]
        exact hrec
      · split
        · rw [setDelivery_ne _ _ _ _ hne]
          exact hrec
        · rw [mark_dup_deliveries, setDelivery_ne _ _ _ _ hne]
          exact hrec
        · rw [mark_invalid_deliveries, setDelivery_ne _ _ _ _ hne]
          exact hrec
        · rw [setDelivery_ne _ _ _ _ hne]
          exact hrec
        · rw [setDelivery_ne _ _ _ _ hne]
          exact hrec
  | reject now f msg reason =>
    by_cases hm : s.msg_id msg = mid
    · refine ⟨r, ?_, rfl⟩
      show (s.reject_message now f msg reason).deliveries mid = some r
      rw [← hm]
      exact reject_message_not_unknown s now f msg reason r (hm ▸ hrec) hst
    · have hne : mid ≠ s.msg_id msg := fun h => hm h.symm
      refine ⟨r, ?_, rfl⟩
      show (s.reject_message now f msg reason).deliveries mid = some r
      cases reason with
      | SelfOrigin => exact hrec
      | BlackListenSource => exact hrec
      | ValidationQueueFull => exact hrec
      | MissingSignature =>
        simp only [PeerScore.reject_message]
        split
        · rw [setDelivery_ne _ _ _ _ hne, setDelivery_ne _ _ _ _ hne]
          exact hrec
        · rw [setDelivery_ne _ _ _ _ hne, foldl_mark_invalid_deliveries,
            mark_invalid_deliveries, setDelivery_ne _ _ _ _ hne]
          exact hrec
      | InvalidSignature =>
        simp only [PeerScore.reject_message]
        split
        · rw [setDelivery_ne _ _ _ _ hne, setDelivery_ne _ _ _ _ hne]
          exact hrec
        · rw [setDelivery_ne _ _ _ _ hne, foldl_mark_invalid_deliveries,
            mark_invalid_deliveries, setDelivery_ne _ _ _ _ hne]
          exact hrec
      | BlacklistedPeer =>
        simp only [PeerScore.reject_message]
        split
        · rw [setDelivery_ne _ _ _ _ hne, setDelivery_ne _ _ _ _ hne]
          exact hrec
        · rw [setDelivery_ne _ _ _ _ hne, foldl_mark_invalid_deliveries,
            mark_invalid_deliveries, setDelivery_ne _ _ _ _ hne]
          exact hrec
      | ValidationThrottled =>
        simp only [PeerScore.reject_message]
        split
        · rw [setDelivery_ne _ _ _ _ hne, setDelivery_ne _ _ _ _ hne]
          exact hrec
        · rw [setDelivery_ne _ _ _ _ hne, setDelivery_ne _ _ _ _ hne]
          exact hrec
      | ValidationIgnored =>
        simp only [PeerScore.reject_message]
        split
        · rw [setDelivery_ne _ _ _ _ hne, setDelivery_ne _ _ _ _ hne]
          exact hrec
        · rw [setDelivery_ne _ _ _ _ hne, setDelivery_ne _ _ _ _ hne]
          exact hrec

theorem execMsgOps_preserves_status (ops : List MsgOp) (s : PeerScore) (mid : MessageId)
    (r : DeliveryRecord) (hrec : s.deliveries mid = some r)
    (hst : r.status ≠ .Unknown) :
    ∃ r', (execMsgOps s ops).deliveries mid = some r' ∧ r'.status = r.status := by
  induction ops generalizing s r with
  | nil => exact ⟨r, hrec, rfl⟩
  | cons op ops ih =>
    obtain ⟨r1, hrec1, hst1⟩ := execMsgOp_preserves_status s mid r hrec hst op
    obtain ⟨r2, hrec2, hst2⟩ := ih (execMsgOp s op) r1 hrec1 (hst1 ▸ hst)
    exact ⟨r2, hrec2, hst2.trans hst1⟩

/-
Lemmas about the IP index and the `refresh_scores` fold.
-/

theorem removePeerFromIps_other (l : List IpAddr) (ips : IpAddr → List PeerId)
    (pid q : PeerId) (h : q ≠ pid) (ip : IpAddr) :
    (q ∈ PeerScore.removePeerFromIps ips pid l ip ↔ q ∈ ips ip) := by
  simp only [PeerScore.removePeerFromIps]
  induction l generalizing ips with
  | nil => exact Iff.rfl
  | cons a t ih =>
    rw [List.foldl_cons, ih]
    by_cases ha : ip = a
    · subst ha
      simp [removeId, h]
    · simp [ha]

theorem removePeerFromIps_self (l : List IpAddr) (ips : IpAddr → List PeerId)
    (pid : PeerId) (ip : IpAddr) (h : pid ∉ ips ip ∨ ip ∈ l) :
    pid ∉ PeerScore.removePeerFromIps ips pid l ip := by
  simp only [PeerScore.removePeerFromIps]
  induction l generalizing ips with
  | nil =>
    rcases h with h | h
    · exact h
    · exact absurd h (List.not_mem_nil ip)
  | cons a t ih =>
    rw [List.foldl_cons]
    apply ih
    by_cases hmem : ip ∈ t
    · exact Or.inr hmem
    · left
      rcases h with h | h
      · by_cases ha : ip = a
        · subst ha
          simp [removeId]
        · simpa [ha] using h
      · have ha : ip = a := by
          rcases List.mem_cons.mp h with h' | h'
          · exact h'
          · exact absurd h' hmem
        subst ha
        simp [removeId]

theorem removePeerFromIps_not_mem (l : List IpAddr) (ips : IpAddr → List PeerId)
    (pid : PeerId) (ip : IpAddr) (h : ip ∉ l) :
    PeerScore.removePeerFromIps ips pid l ip = ips ip := by
  simp only [PeerScore.removePeerFromIps]
  induction l generalizing ips with
  | nil => rfl
  | cons a t ih =>
    have ha : ip ≠ a := fun hh => h (hh ▸ List.mem_cons_self a t)
    have h' : ip ∉ t := fun hm => h (List.mem_cons_of_mem _ hm)
    rw [List.foldl_cons, ih _ h']
    simp [ha]

theorem refresh_foldl_skip (params : PeerScoreParams) (now : Nat) (p : PeerId)
    (l : List (PeerId × PeerStats)) (h : ∀ e ∈ l, e.1 ≠ p)
    (acc : List (PeerId × PeerStats) × (IpAddr → List PeerId)) :
    lookupA (l.foldl (PeerScore.refreshStep params now) acc).1 p = lookupA acc.1 p
    ∧ ∀ ip, p ∈ (l.foldl (PeerScore.refreshStep params now) acc).2 ip ↔ p ∈ acc.2 ip := by
  induction l generalizing acc with
  | nil => exact ⟨rfl, fun _ => Iff.rfl⟩
  | cons e t ih =>
    have he : e.1 ≠ p := h e (List.mem_cons_self e t)
    have h' : ∀ x ∈ t, x.1 ≠ p := fun x hx => h x (List.mem_cons_of_mem _ hx)
    rw [List.foldl_cons]
    obtain ⟨ih1, ih2⟩ := ih h' (PeerScore.refreshStep params now acc e)
    have hstep1 : lookupA (PeerScore.refreshStep params now acc e).1 p = lookupA acc.1 p := by
      cases hstat : e.2.status with
      | Disconnected expire =>
        by_cases hexp : now > expire
        · simp [PeerScore.refreshStep, hstat, hexp]
        · simp only [PeerScore.refreshStep, hstat, if_neg hexp]
          exact lookupA_append_ne _ _ _ _ he
      | Connected =>
        simp only [PeerScore.refreshStep, hstat]
        exact lookupA_append_ne _ _ _ _ he
    have hstep2 : ∀ ip, p ∈ (PeerScore.refreshStep params now acc e).2 ip ↔ p ∈ acc.2 ip := by
      intro ip
      cases hstat : e.2.status with
      | Disconnected expire =>
        by_cases hexp : now > expire
        · simp only [PeerScore.refreshStep, hstat, if_pos hexp]
          exact removePeerFromIps_other _ _ _ _ (Ne.symm he) _
        · simp [PeerScore.refreshStep, hstat, hexp]
      | Connected => simp [PeerScore.refreshStep, hstat]
    exact ⟨ih1.trans hstep1, fun ip => (ih2 ip).trans (hstep2 ip)⟩

/-
Support lemmas for the per-topic update functions.
-/

theorem firstDeliveryUpd_first (tp : TopicScoreParams) (ts : TopicStats) :
    (PeerScore.firstDeliveryUpd tp ts).first_message_deliveries
      = if ts.first_message_deliveries + 1 > tp.first_message_deliveries_cap
        then tp.first_message_deliveries_cap
        else ts.first_message_deliveries + 1 := by
  obtain ⟨ms, f, a, m, mf, inv⟩ := ts
  cases ms <;> rfl

theorem pruneUpd_eq (tp : TopicScoreParams) (ts : TopicStats) :
    PeerScore.pruneUpd tp ts = { ts with
      mesh_failure_penalty := ts.mesh_failure_penalty +
        (if ts.mesh_message_deliveries_active ∧
            ts.mesh_message_deliveries < tp.mesh_message_deliveries_threshold
         then (tp.mesh_message_deliveries_threshold - ts.mesh_message_deliveries) *
              (tp.mesh_message_deliveries_threshold - ts.mesh_message_deliveries)
         else 0),
      mesh_message_deliveries_active := false } := by
  by_cases h : ts.mesh_message_deliveries_active ∧
      ts.mesh_message_deliveries < tp.mesh_message_deliveries_threshold
  · simp only [PeerScore.pruneUpd]
    rw [if_pos h, if_pos h]
  · simp only [PeerScore.pruneUpd]
    rw [if_neg h, if_neg h]
    simp

theorem topicStatsOf_mark_first (s : PeerScore) (p : PeerId) (msg : GossipsubMessage)
    (ps : PeerStats) (t : TopicHash) (tp : TopicScoreParams)
    (hps : lookupA s.peer_stats p = some ps)
    (hnd : msg.topics.Nodup) (hmem : t ∈ msg.topics)
    (htp : lookupA s.params.topics t = some tp) :
    topicStatsOf (s.mark_first_message_delivery p msg) p t
      = some (PeerScore.firstDeliveryUpd tp ((lookupA ps.topics t).getD defaultTopicStats)) := by
  simp only [topicStatsOf, PeerScore.mark_first_message_delivery,
    lookupA_updateA_self, hps, Option.map_some', Option.some_bind]
  exact foldl_stats_upd_mem _ _ _ _ _ _ hnd hmem htp

theorem topicStatsOf_prune (s : PeerScore) (p : PeerId) (t : TopicHash)
    (ps : PeerStats) (tp : TopicScoreParams)
    (hps : lookupA s.peer_stats p = some ps)
    (htp : lookupA s.params.topics t = some tp) :
    topicStatsOf (s.prune p t) p t
      = some (PeerScore.pruneUpd tp ((lookupA ps.topics t).getD defaultTopicStats)) := by
  simp only [topicStatsOf, PeerScore.prune,
    lookupA_updateA_self, hps, Option.map_some', Option.some_bind]
  exact stats_upd_lookup_scored _ _ _ _ _ htp

/-
Claim theorems.
-/

/-- C1: the claim states that for a peer whose mesh status is Active,
`mark_first_message_delivery` increments `mesh_message_deliveries` by
exactly 1 from its previous value (saturating at the cap).  Evaluating the
embedded source on a peer with `first_message_deliveries = 5` and
`mesh_message_deliveries = 0` (caps 100 and 10) yields a mesh counter of
7, not 0 + 1: the source assigns the freshly incremented
`first_message_deliveries + 1` into the mesh counter. -/
theorem C1_mark_first_mesh_counter_eval :
    (topicStatsOf (engFive.mark_first_message_delivery 0 (msgOn0 1)) 0 0).map
        (fun ts => (ts.first_message_deliveries, ts.mesh_message_deliveries))
      = some (6, 7)
    ∧ (7 : Rat) ≠ 0 + 1 := by decide

/-- C2: the claim states that `duplicated_message` is idempotent and
records the reporting peer in `record.peers`.  Evaluating the embedded
source: with a `Valid` record, one call credits one mesh delivery and a
second identical call credits another (counter 2, not 1), because the
reporter is removed from, not inserted into, `record.peers` (shown empty);
with an `Unknown` record the reporter is likewise not recorded as an
observer. -/
theorem C2_duplicated_message_eval :
    (topicStatsOf (engValidRec.duplicated_message 0 0 (msgOn0 1)) 0 0).map
        (·.mesh_message_deliveries) = some 1
    ∧ (topicStatsOf ((engValidRec.duplicated_message 0 0 (msgOn0 1)).duplicated_message
          0 0 (msgOn0 1)) 0 0).map (·.mesh_message_deliveries) = some 2
    ∧ ((engValidRec.duplicated_message 0 0 (msgOn0 1)).deliveries (0, 1)).map (·.peers)
        = some []
    ∧ ((engOnePeer.duplicated_message 0 0 (msgOn0 1)).deliveries (0, 1)).map
        (fun r => (r.status, r.peers)) = some (.Unknown, []) := by decide

/-- C3: the claim states that `mark_duplicate_message_delivery` with an
absent `validated_time` bypasses the window check and still increments the
mesh counter, so `deliver_message` credits recorded relayers.  Evaluating
the embedded source: with `none` the counter stays 0 (the increment sits
inside `if let Some(..)`), while `some 0` increments it; consequently
`deliver_message` on a record listing relayer 1 leaves that relayer's mesh
counter at 0 even though the record is marked `Valid`. -/
theorem C3_dup_delivery_none_eval :
    (topicStatsOf (engGrafted.mark_duplicate_message_delivery 0 0 (msgOn0 1) none) 0 0).map
        (·.mesh_message_deliveries) = some 0
    ∧ (topicStatsOf (engGrafted.mark_duplicate_message_delivery 0 0 (msgOn0 1) (some 0)) 0 0).map
        (·.mesh_message_deliveries) = some 1
    ∧ (topicStatsOf (engRelayer.deliver_message 0 0 (msgOn0 1)) 1 0).map
        (·.mesh_message_deliveries) = some 0
    ∧ ((engRelayer.deliver_message 0 0 (msgOn0 1)).deliveries (0, 1)).map (·.status)
        = some .Valid := by decide

/-- C4: the claim states that `reject_message` with `MissingSignature`
(similarly `InvalidSignature`, `BlacklistedPeer`) touches no record and
applies no penalty inside the engine.  Evaluating the embedded source on
an empty cache: the empty match arm falls through, an `Invalid` record is
created for the message and the rejecting peer's
`invalid_message_deliveries` counter is incremented to 1. -/
theorem C4_reject_missing_signature_eval :
    (engOnePeer.reject_message 0 0 (msgOn0 1) .MissingSignature).deliveries (0, 1)
        = some { status := .Invalid, first_seen := 0, validated := 0, peers := [] }
    ∧ (topicStatsOf (engOnePeer.reject_message 0 0 (msgOn0 1) .MissingSignature) 0 0).map
        (·.invalid_message_deliveries) = some 1
    ∧ (engOnePeer.reject_message 0 0 (msgOn0 1) .InvalidSignature).deliveries (0, 1)
        = some { status := .Invalid, first_seen := 0, validated := 0, peers := [] }
    ∧ (engOnePeer.reject_message 0 0 (msgOn0 1) .BlacklistedPeer).deliveries (0, 1)
        = some { status := .Invalid, first_seen := 0, validated := 0, peers := [] } := by
  decide

/-- C5: the claim states that `mesh_message_deliveries` never exceeds
`mesh_message_deliveries_cap` after any sequence of public operations.
Evaluating the embedded source on the sequence add_peer, two delivers,
graft, deliver (cap 2): the mesh counter ends at 4 > 2, via the
`first_message_deliveries + 1` assignment in
`mark_first_message_delivery`. -/
theorem C5_mesh_cap_invariant_eval :
    (topicStatsOf engCapRun 0 0).map (·.mesh_message_deliveries) = some 4
    ∧ (lookupA engCapRun.params.topics 0).map (·.mesh_message_deliveries_cap) = some 2
    ∧ ¬ ((4 : Rat) ≤ 2) := by decide

/-- C6: the claim states that `remove_peer` on a positively scored peer
erases both the stats and the IP-index entries, keeping the index
invariant.  Evaluating the embedded source on add_peer(0, [7]), one
delivery (score 2 > 0), remove_peer: the stats entry is gone but peer 0 is
still a member of `peer_ips[7]`, so the invariant
`p ∈ peer_ips[ip] ⇔ ip ∈ known_ips` is broken with no operation left to
repair it. -/
theorem C6_remove_peer_ip_index_eval :
    lookupA engPositiveRemoved.peer_stats 0 = none
    ∧ 0 ∈ engPositiveRemoved.peer_ips 7 := by decide

/-- C7 counterexample: the claim states that `prune` leaves the topic's
`mesh_status` Inactive.  On a peer grafted at time 3 the embedded source
leaves `mesh_status = Active 3 0` after the prune: `prune` never writes
`mesh_status`. -/
theorem C7_prune_counterexample :
    (topicStatsOf (engGraftedAt3.prune 0 0) 0 0).map (·.mesh_status)
        = some (.Active 3 0)
    ∧ (topicStatsOf (engGraftedAt3.prune 0 0) 0 0).map (·.mesh_status)
        ≠ some .InActive := by decide

/-- C7 (amended): for every known peer and scored topic, `prune` adds
deficit-squared (threshold minus mesh deliveries) to
`mesh_failure_penalty` exactly when `mesh_message_deliveries_active` holds
and the counter is below the threshold, clears
`mesh_message_deliveries_active`, and leaves every other field — in
particular `mesh_status` — unchanged (it does not become Inactive). -/
theorem C7_prune_spec (s : PeerScore) (p : PeerId) (t : TopicHash)
    (ps : PeerStats) (tp : TopicScoreParams) (ts : TopicStats)
    (hps : lookupA s.peer_stats p = some ps)
    (htp : lookupA s.params.topics t = some tp)
    (hts : (lookupA ps.topics t).getD defaultTopicStats = ts) :
    topicStatsOf (s.prune p t) p t
      = some { ts with
          mesh_failure_penalty := ts.mesh_failure_penalty +
            (if ts.mesh_message_deliveries_active ∧
                ts.mesh_message_deliveries < tp.mesh_message_deliveries_threshold
             then (tp.mesh_message_deliveries_threshold - ts.mesh_message_deliveries) *
                  (tp.mesh_message_deliveries_threshold - ts.mesh_message_deliveries)
             else 0),
          mesh_message_deliveries_active := false } := by
  rw [topicStatsOf_prune s p t ps tp hps htp, hts, pruneUpd_eq]

/-- C7 witness: the amended prune behaviour at a concrete engine (active
flag set, mesh deliveries 2, threshold 5): the penalty becomes 9, the
flag clears, the mesh status stays `Active 1 0`. -/
theorem C7_prune_spec_witness :
    topicStatsOf (engActiveBelow.prune 0 0) 0 0
      = some { tsActiveBelow with
          mesh_failure_penalty := tsActiveBelow.mesh_failure_penalty +
            (if tsActiveBelow.mesh_message_deliveries_active ∧
                tsActiveBelow.mesh_message_deliveries <
                  tpBase.mesh_message_deliveries_threshold
             then (tpBase.mesh_message_deliveries_threshold -
                    tsActiveBelow.mesh_message_deliveries) *
                  (tpBase.mesh_message_deliveries_threshold -
                    tsActiveBelow.mesh_message_deliveries)
             else 0),
          mesh_message_deliveries_active := false } :=
  C7_prune_spec engActiveBelow 0 0 psActiveBelow tpBase tsActiveBelow rfl rfl rfl

/-- C8: once a delivery record has left the `Unknown` status, any sequence
of `deliver_message` / `duplicated_message` / `reject_message` events
keeps a record with that same status at the same message id (so the
status changes away from `Unknown` at most once), and a `deliver_message`
or `reject_message` firing directly on such a record preserves the record
exactly in its prior state. -/
theorem C8_record_leaves_unknown_once (s : PeerScore) (ops : List MsgOp)
    (mid : MessageId) (r : DeliveryRecord)
    (hrec : s.deliveries mid = some r) (hst : r.status ≠ .Unknown) :
    (∃ r', (execMsgOps s ops).deliveries mid = some r' ∧ r'.status = r.status)
    ∧ (∀ now f msg, s.msg_id msg = mid →
        (s.deliver_message now f msg).deliveries mid = some r)
    ∧ (∀ now f msg reason, s.msg_id msg = mid →
        (s.reject_message now f msg reason).deliveries mid = some r) := by
  refine ⟨execMsgOps_preserves_status ops s mid r hrec hst, ?_, ?_⟩
  · intro now f msg hm
    have hrec' : s.deliveries (s.msg_id msg) = some r := by rw [hm]; exact hrec
    rw [← hm, deliver_message_not_unknown s now f msg r hrec' hst]
    exact setDelivery_self ..
  · intro now f msg reason hm
    have hrec' : s.deliveries (s.msg_id msg) = some r := by rw [hm]; exact hrec
    rw [← hm]
    exact reject_message_not_unknown s now f msg reason r hrec' hst

/-- C8 witness: on a concrete engine holding a `Valid` record for message
`(0, 1)`, a later `deliver_message` for that id preserves the record. -/
theorem C8_record_leaves_unknown_once_witness :
    (engRecValid.deliver_message 0 0 (msgOn0 1)).deliveries (0, 1) = some recValid :=
  (C8_record_leaves_unknown_once engRecValid [] (0, 1) recValid rfl
    (by decide)).2.1 0 0 (msgOn0 1) rfl

/-- C9 counterexample: the claim states that the first refresh after the
expire time removes the peer from every `peer_ips` entry.  After
`add_peer(0, [1])`, `add_peer(0, [2])` (which leaves a stale index entry
at address 1) and a retaining `remove_peer` (expire 10), the refresh at
time 11 erases the stats and the entry at address 2 but leaves peer 0 in
`peer_ips[1]`: only the addresses in `known_ips` are cleaned. -/
theorem C9_refresh_counterexample :
    lookupA (engStaleIp.refresh_scores 11).peer_stats 0 = none
    ∧ 0 ∈ (engStaleIp.refresh_scores 11).peer_ips 1
    ∧ (lookupA engStaleIp.peer_stats 0).map (fun ps => ps.status) = some (.Disconnected 10)
    ∧ (lookupA engStaleIp.peer_stats 0).map (fun ps => ps.known_ips) = some [2] := by
  decide

/-- C9 (amended): for a Disconnected peer, a `refresh_scores` before the
expire time leaves the peer's whole stats entry unchanged (in particular
no counter decays) and its IP-index membership untouched; the first
refresh after the expire time removes the peer from `peer_stats` and from
`peer_ips[ip]` for every ip in its `known_ips`, while its membership in
entries at other addresses is left as it was (not removed). -/
theorem C9_refresh_disconnected (s : PeerScore) (now : Nat) (p : PeerId)
    (ps : PeerStats) (expire : Nat)
    (hnd : (s.peer_stats.map Prod.fst).Nodup)
    (hps : lookupA s.peer_stats p = some ps)
    (hst : ps.status = .Disconnected expire) :
    (now ≤ expire →
      lookupA (s.refresh_scores now).peer_stats p = some ps
      ∧ ∀ ip, (p ∈ (s.refresh_scores now).peer_ips ip ↔ p ∈ s.peer_ips ip))
    ∧ (now > expire →
      lookupA (s.refresh_scores now).peer_stats p = none
      ∧ (∀ ip, ip ∈ ps.known_ips → p ∉ (s.refresh_scores now).peer_ips ip)
      ∧ (∀ ip, ip ∉ ps.known_ips →
          (p ∈ (s.refresh_scores now).peer_ips ip ↔ p ∈ s.peer_ips ip))) := by
  obtain ⟨l1, l2, hsplit, hl1⟩ := lookupA_split s.peer_stats p ps hps
  have hnd' := hnd
  rw [hsplit, List.map_append, List.map_cons] at hnd'
  have hcons : (p :: l2.map Prod.fst).Nodup := (List.nodup_append.mp hnd').2.1
  have hp2 : p ∉ l2.map Prod.fst := (List.nodup_cons.mp hcons).1
  have hl2 : ∀ e ∈ l2, e.1 ≠ p :=
    fun e he heq => hp2 (heq ▸ List.mem_map_of_mem Prod.fst he)
  have hre1 : (s.refresh_scores now).peer_stats
      = ((l1 ++ (p, ps) :: l2).foldl (PeerScore.refreshStep s.params now)
          ([], s.peer_ips)).1 := by
    rw [← hsplit]; rfl
  have hre2 : (s.refresh_scores now).peer_ips
      = ((l1 ++ (p, ps) :: l2).foldl (PeerScore.refreshStep s.params now)
          ([], s.peer_ips)).2 := by
    rw [← hsplit]; rfl
  rw [List.foldl_append, List.foldl_cons] at hre1 hre2
  obtain ⟨a1, a2⟩ := refresh_foldl_skip s.params now p l1 hl1 ([], s.peer_ips)
  set acc1 := l1.foldl (PeerScore.refreshStep s.params now) ([], s.peer_ips) with hacc1
  constructor
  · intro hle
    have hexp : ¬ now > expire := by omega
    have hstep : PeerScore.refreshStep s.params now acc1 (p, ps)
        = (acc1.1 ++ [(p, ps)], acc1.2) := by
      simp [PeerScore.refreshStep, hst, hexp]
    rw [hstep] at hre1 hre2
    obtain ⟨b1, b2⟩ := refresh_foldl_skip s.params now p l2 hl2 (acc1.1 ++ [(p, ps)], acc1.2)
    constructor
    · rw [hre1, b1, lookupA_append_none _ _ _ a1]
      simp [lookupA]
    · intro ip
      rw [hre2]
      exact (b2 ip).trans (a2 ip)
  · intro hgt
    have hstep : PeerScore.refreshStep s.params now acc1 (p, ps)
        = (acc1.1, PeerScore.removePeerFromIps acc1.2 p ps.known_ips) := by
      simp [PeerScore.refreshStep, hst, hgt]
    rw [hstep] at hre1 hre2
    obtain ⟨b1, b2⟩ := refresh_foldl_skip s.params now p l2 hl2
      (acc1.1, PeerScore.removePeerFromIps acc1.2 p ps.known_ips)
    refine ⟨?_, ?_, ?_⟩
    · rw [hre1, b1]
      exact a1
    · intro ip hip
      rw [hre2]
      intro hmem
      exact removePeerFromIps_self _ _ _ _ (Or.inr hip) ((b2 ip).mp hmem)
    · intro ip hip
      rw [hre2]
      refine (b2 ip).trans ?_
      show p ∈ PeerScore.removePeerFromIps acc1.2 p ps.known_ips ip ↔ p ∈ s.peer_ips ip
      rw [removePeerFromIps_not_mem _ _ _ _ hip]
      exact a2 ip

/-- C9 witness: a concrete retained peer (expire 5) is fully preserved by
a refresh at time 3. -/
theorem C9_refresh_disconnected_witness :
    lookupA (engRetained.refresh_scores 3).peer_stats 0 = some psRetained :=
  ((C9_refresh_disconnected engRetained 3 0 psRetained 5 (by decide) rfl rfl).1
    (by decide)).1

/-- C10: when `deliver_message` fires for a message whose record has
already left `Unknown` (for example a second `deliver_message` for the
same message), the first-delivery credit is still applied before the
duplicate-trace check returns: the resulting peer statistics are exactly
those of `mark_first_message_delivery`, the record is preserved, and the
delivering peer's `first_message_deliveries` on each scored topic of the
message is incremented again (saturating at the cap). -/
theorem C10_deliver_message_repeats_credit (s : PeerScore) (now : Nat) (from_ : PeerId)
    (msg : GossipsubMessage) (r : DeliveryRecord) (ps : PeerStats)
    (t : TopicHash) (tp : TopicScoreParams) (ts : TopicStats)
    (hrec : s.deliveries (s.msg_id msg) = some r) (hst : r.status ≠ .Unknown)
    (hps : lookupA s.peer_stats from_ = some ps)
    (hnd : msg.topics.Nodup) (hmem : t ∈ msg.topics)
    (htp : lookupA s.params.topics t = some tp)
    (hts : lookupA ps.topics t = some ts) :
    (s.deliver_message now from_ msg).peer_stats
        = (s.mark_first_message_delivery from_ msg).peer_stats
    ∧ (s.deliver_message now from_ msg).deliveries (s.msg_id msg) = some r
    ∧ (topicStatsOf (s.deliver_message now from_ msg) from_ t).map
        (·.first_message_deliveries)
      = some (if ts.first_message_deliveries + 1 > tp.first_message_deliveries_cap
              then tp.first_message_deliveries_cap
              else ts.first_message_deliveries + 1) := by
  have hkey := deliver_message_not_unknown s now from_ msg r hrec hst
  refine ⟨by rw [hkey]; rfl, ?_, ?_⟩
  · rw [hkey]
    exact setDelivery_self ..
  · rw [hkey]
    have hsame : topicStatsOf (PeerScore.setDelivery
          (s.mark_first_message_delivery from_ msg) (s.msg_id msg) (some r)) from_ t
        = topicStatsOf (s.mark_first_message_delivery from_ msg) from_ t := rfl
    rw [hsame, topicStatsOf_mark_first s from_ msg ps t tp hps hnd hmem htp, hts]
    simp [firstDeliveryUpd_first]

/-- C10 witness: on a concrete engine with a `Valid` record for `(0, 1)`
and one first delivery already credited, delivering the same message
again raises the counter to 2. -/
theorem C10_deliver_message_repeats_credit_witness :
    (topicStatsOf (engOneFirst.deliver_message 5 0 (msgOn0 1)) 0 0).map
        (·.first_message_deliveries)
      = some (if tsOneFirst.first_message_deliveries + 1 >
                tpBase.first_message_deliveries_cap
              then tpBase.first_message_deliveries_cap
              else tsOneFirst.first_message_deliveries + 1) :=
  (C10_deliver_message_repeats_credit engOneFirst 5 0 (msgOn0 1) recValid psOneFirst
    0 tpBase tsOneFirst rfl (by decide) rfl (by decide) (by decide) rfl rfl).2.2
